import Mathlib

/-!
Verification development for the loss-report service in src/app/index.js.
The pure helper functions (parseRuDT, hoursDiff, splitRestaurant) and the
two stateful handlers (POST /api/reports, PUT /api/reports/:id) are given
a shallow embedding below; machine floats are modelled by rationals, the
Postgres reports table by a list of rows, and Date values by whole minutes
since the Unix epoch on the proleptic Gregorian calendar (calendar-naive,
which is what the handlers observe since only differences and formatted
fields are used).
-/

namespace KfcLoss

/-- Whitespace test covering the characters relevant to this application;
it models both the JavaScript regex class for whitespace and the character
set removed by String.prototype.trim. -/
def isWs (c : Char) : Bool :=
  c = ' ' || c = '\t' || c = '\n' || c = '\r'

/-- Model of String.prototype.trim on a list of characters. -/
def jsTrim (l : List Char) : List Char :=
  ((l.dropWhile isWs).reverse.dropWhile isWs).reverse

/-- String wrapper for jsTrim. -/
def jsTrimS (s : String) : String :=
  String.mk (jsTrim s.data)

/-- Decimal digit test, modelling the regex digit class. -/
def isDigit (c : Char) : Bool :=
  '0' ≤ c && c ≤ '9'

/-- Numeric value of a decimal digit character. -/
def digitVal (c : Char) : Nat :=
  c.toNat - '0'.toNat

/-- Whether the first list is an initial segment of the second; used to
model locating a substring, as String.prototype.includes and split do. -/
def leadsWith : List Char → List Char → Bool
  | [], _ => true
  | _ :: _, [] => false
  | a :: as, b :: bs => a = b && leadsWith as bs

/-- Index of the first occurrence of the pattern d inside xs, if any;
models String.prototype.indexOf restricted to what this file needs. -/
def findSub (d : List Char) : List Char → Option Nat
  | [] => if leadsWith d [] then some 0 else none
  | c :: rest =>
    if leadsWith d (c :: rest) then some 0
    else (findSub d rest).map (fun n => n + 1)

/-- The literal delimiter of splitRestaurant: space, em dash, space. -/
def emDelim : List Char := [' ', '—', ' ']

/-- Model of String.prototype.split specialized to the delimiter of
splitRestaurant: the input is cut at each leftmost non-overlapping
occurrence of space, em dash, space. -/
def jsSplitEm : List Char → List (List Char)
  | ' ' :: '—' :: ' ' :: rest => [] :: jsSplitEm rest
  | c :: rest =>
    match jsSplitEm rest with
    | [] => [[c]]
    | p :: ps => (c :: p) :: ps
  | [] => [[]]

/-- Result record of splitRestaurant. -/
structure RestSplit where
  code : String
  name : String
deriving DecidableEq, Repr

/-- Model of splitRestaurant from src/app/index.js: trim the input, and if
the trimmed text contains the delimiter, the code is the trimmed first
split part and the name is the remaining parts rejoined with the delimiter
and trimmed; otherwise the code is empty and the name is the trimmed text. -/
def splitRestaurant (r : String) : RestSplit :=
  let s := jsTrim r.data
  if (findSub emDelim s).isSome then
    let parts := jsSplitEm s
    { code := String.mk (jsTrim (parts.headD []))
      name := String.mk (jsTrim (List.intercalate emDelim (parts.drop 1))) }
  else
    { code := "", name := String.mk s }

/-- Days between the Unix epoch and the given proleptic Gregorian civil
date, following the standard civil-from-days arithmetic that the
JavaScript Date object implements; linear in d so that out-of-range day
numbers roll over exactly as the Date constructor does. -/
def daysFromCivil (y m d : Int) : Int :=
  let yAdj := if m ≤ 2 then y - 1 else y
  let era := (if 0 ≤ yAdj then yAdj else yAdj - 399) / 400
  let yoe := yAdj - era * 400
  let mp := if 2 < m then m - 3 else m + 9
  let doy := (153 * mp + 2) / 5 + d - 1
  let doe := yoe * 365 + yoe / 4 - yoe / 100 + doy
  era * 146097 + doe - 719468

/-- Value of the JavaScript construction Date(year, monthIndex, day,
hours, minutes) expressed in whole minutes since the Unix epoch,
calendar-naive. Out-of-range month indexes, days, hours and minutes roll
over as Date normalizes them, and two-digit years are mapped into
1900..1999 as the Date constructor does. -/
def dateMinutes (yy mmIdx dd hh mi : Int) : Int :=
  let yAdj := if 0 ≤ yy && yy ≤ 99 then yy + 1900 else yy
  let y := yAdj + Int.fdiv mmIdx 12
  let m := Int.emod mmIdx 12 + 1
  daysFromCivil y m dd * 1440 + hh * 60 + mi

/-- Reading of the regex for parseRuDT on an already-trimmed character
list: two digits, a dot, two digits, a dot, four digits, one or more
whitespace characters, two digits, a colon, two digits, end of input.
Returns the day, month, year, hour and minute fields as integers. -/
def matchRu : List Char → Option (Int × Int × Int × Int × Int)
  | d1 :: d2 :: '.' :: m1 :: m2 :: '.' :: y1 :: y2 :: y3 :: y4 :: rest =>
    if isDigit d1 && isDigit d2 && isDigit m1 && isDigit m2 &&
        isDigit y1 && isDigit y2 && isDigit y3 && isDigit y4 then
      match rest.takeWhile isWs, rest.dropWhile isWs with
      | _ :: _, [h1, h2, ':', i1, i2] =>
        if isDigit h1 && isDigit h2 && isDigit i1 && isDigit i2 then
          some ((10 * digitVal d1 + digitVal d2 : Nat),
                (10 * digitVal m1 + digitVal m2 : Nat),
                (1000 * digitVal y1 + 100 * digitVal y2 +
                  10 * digitVal y3 + digitVal y4 : Nat),
                (10 * digitVal h1 + digitVal h2 : Nat),
                (10 * digitVal i1 + digitVal i2 : Nat))
        else none
      | _, _ => none
    else none
  | _ => none

/-- Model of parseRuDT from src/app/index.js: the empty string is falsy
and yields null; otherwise the trimmed input is matched against the
timestamp regex and on success the Date(yy, mm - 1, dd, hh, mi) instant is
returned in minutes since the epoch. The NaN guard of the source cannot
fire for the bounded field values the regex produces, so the match
succeeding is equivalent to a non-null result. -/
def parseRuDT (s : String) : Option Int :=
  if s = "" then none
  else
    match matchRu (jsTrim s.data) with
    | none => none
    | some (dd, mm, yy, hh, mi) => some (dateMinutes yy (mm - 1) dd hh mi)

/-- Model of Math.round on rationals: round half toward positive
infinity, which is the JavaScript rounding rule. Written as an integer
floor division of numerator and denominator so that the kernel can
evaluate it; the lemma jsRound_eq_floor below shows it is the floor of
the argument plus one half. -/
def jsRound (q : ℚ) : Int :=
  Int.fdiv (2 * q.num + (q.den : Int)) (2 * (q.den : Int))

/-- Model of hoursDiff from src/app/index.js: none models the empty
string returned when either timestamp fails to parse, and some q models
the numeric difference in hours rounded to two decimals via Math.round. -/
def hoursDiff (startStr endStr : String) : Option ℚ :=
  match parseRuDT startStr, parseRuDT endStr with
  | some a, some b =>
    let diff : ℚ := ((b - a : Int) : ℚ) / 60
    some ((jsRound (diff * 100) : ℚ) / 100)
  | _, _ => none

/-- Request identities: inl carries a client-supplied string identity,
inr a generated one. crypto.randomUUID is modelled as an injective fresh
supply, disjoint from every client string, which is the collision-free
reading of a version 4 UUID. -/
abbrev RequestId := Sum String Nat

/-- One row of the reports table from ensureSchema in src/app/index.js. -/
structure Report where
  id : Nat
  request_id : RequestId
  manager : String
  restaurant : String
  reason : String
  comment : String
  start : String
  end_ : String
  amount : Int
  created_at : Int
deriving DecidableEq, Repr

/-- The durable state: the rows of the reports table in insertion order,
the next value of the id sequence, and the state of the UUID supply. -/
structure Store where
  reports : List Report
  nextId : Nat
  uuidCounter : Nat
deriving DecidableEq, Repr

/-- The body of a POST /api/reports request. String fields are absent or
a string; amount is the value of Number(amount), with none standing for
a non-finite result (NaN or an infinity) and some q for the finite value. -/
structure CreateInput where
  manager : Option String
  restaurant : Option String
  reason : Option String
  amount : Option ℚ
  start : Option String
  end_ : Option String
  comment : Option String
  request_id : Option String
deriving DecidableEq, Repr

/-- The body of a PUT /api/reports/:id request. -/
structure UpdateInput where
  manager : Option String
  restaurant : Option String
  reason : Option String
  amount : Option ℚ
  start : Option String
  end_ : Option String
  comment : Option String
deriving DecidableEq, Repr

/-- JavaScript truthiness of an absent-or-string value: absent and the
empty string are falsy. -/
def truthy : Option String → Bool
  | none => false
  | some s => s != ""

/-- The falsy-to-empty defaulting the insert parameters apply, as in
comment ? String(comment) : "" in the source. -/
def orEmpty : Option String → String
  | none => ""
  | some s => if s = "" then "" else s

/-- The error outcomes the two handlers can report. requiredMissing is
the 400 for a missing manager, restaurant or reason; amountNotPositive
the 400 for a non-finite or non-positive amount; notFound the 404 of the
update handler. -/
inductive ApiError where
  | requiredMissing
  | amountNotPositive
  | notFound
deriving DecidableEq, Repr

deriving instance DecidableEq for Except

/-- A fresh generated identity from the UUID supply. -/
def randomUUID (n : Nat) : RequestId := Sum.inr n

/-- The identity the create handler takes from the request, if any: the
expression request_id and String(request_id).trim() yields the trimmed
client identity when request_id is truthy and its trim is nonempty, and
otherwise the handler falls back to a random UUID. -/
def explicitRid (inp : CreateInput) : Option String :=
  match inp.request_id with
  | none => none
  | some s => if s = "" then none else (if jsTrimS s = "" then none else some (jsTrimS s))

/-- The row the create handler inserts, built from the insert parameter
list of the source: trimmed required fields, falsy-defaulted optional
fields, rounded amount, the identity rid and created_at = now. -/
def newReportRow (now : Int) (inp : CreateInput) (nAmount : ℚ)
    (rid : RequestId) (st : Store) : Report :=
  { id := st.nextId
    request_id := rid
    manager := jsTrimS (inp.manager.getD "")
    restaurant := jsTrimS (inp.restaurant.getD "")
    reason := jsTrimS (inp.reason.getD "")
    comment := orEmpty inp.comment
    start := orEmpty inp.start
    end_ := orEmpty inp.end_
    amount := jsRound nAmount
    created_at := now }

/-- Outcome of one POST /api/reports call: the state after the call, the
response (an error, or ok with the row the final select found), and how
many times the outbound notifier was invoked. -/
structure CreateOut where
  store : Store
  resp : Except ApiError (Option Report)
  notified : Nat
deriving DecidableEq, Repr

/-- Model of the POST /api/reports handler of src/app/index.js.
notifierConfigured models BOT_TOKEN and TG_CHAT_ID both being set;
notifierOk models whether the telegram call succeeds, which the handler
swallows with try catch; now models Date.now(). The insert with on
conflict do nothing is the conditional append, and the following select
by request_id is the find. -/
def createReport (notifierConfigured notifierOk : Bool) (now : Int)
    (inp : CreateInput) (st : Store) : CreateOut :=
  if !truthy inp.manager || !truthy inp.restaurant || !truthy inp.reason then
    { store := st, resp := Except.error ApiError.requiredMissing, notified := 0 }
  else
    match inp.amount with
    | none =>
      { store := st, resp := Except.error ApiError.amountNotPositive, notified := 0 }
    | some nAmount =>
      if nAmount ≤ 0 then
        { store := st, resp := Except.error ApiError.amountNotPositive, notified := 0 }
      else
        let rid : RequestId :=
          match explicitRid inp with
          | some t => Sum.inl t
          | none => randomUUID st.uuidCounter
        let counter2 : Nat :=
          match explicitRid inp with
          | some _ => st.uuidCounter
          | none => st.uuidCounter + 1
        let conflict := st.reports.any (fun r => decide (r.request_id = rid))
        let st2 : Store :=
          if conflict then
            { st with uuidCounter := counter2 }
          else
            { reports := st.reports ++ [newReportRow now inp nAmount rid st]
              nextId := st.nextId + 1
              uuidCounter := counter2 }
        let row := st2.reports.find? (fun r => decide (r.request_id = rid))
        let notified := if notifierConfigured && row.isSome then 1 else 0
        { store := st2, resp := Except.ok row, notified := notified }

/-- The field overwrite of the update statement, applied to a row. -/
def updatedFields (inp : UpdateInput) (nAmount : ℚ) (r : Report) : Report :=
  { r with
    manager := jsTrimS (inp.manager.getD "")
    restaurant := jsTrimS (inp.restaurant.getD "")
    reason := jsTrimS (inp.reason.getD "")
    amount := jsRound nAmount
    start := orEmpty inp.start
    end_ := orEmpty inp.end_
    comment := orEmpty inp.comment }

/-- The per-row effect of the update statement with its where clause. -/
def applyUpdate (id : Int) (inp : UpdateInput) (nAmount : ℚ) (r : Report) : Report :=
  if (r.id : Int) = id then updatedFields inp nAmount r else r

/-- Outcome of one PUT /api/reports/:id call. -/
structure UpdateOut where
  store : Store
  resp : Except ApiError Report
deriving DecidableEq, Repr

/-- Model of the PUT /api/reports/:id handler of src/app/index.js for a
finite integer id. The handler first selects the row by id and answers
404 when absent, then validates exactly as create does, then runs the
update statement and returns the updated row. -/
def updateReport (id : Int) (inp : UpdateInput) (st : Store) : UpdateOut :=
  match st.reports.find? (fun r => decide ((r.id : Int) = id)) with
  | none => { store := st, resp := Except.error ApiError.notFound }
  | some existing =>
    if !truthy inp.manager || !truthy inp.restaurant || !truthy inp.reason then
      { store := st, resp := Except.error ApiError.requiredMissing }
    else
      match inp.amount with
      | none => { store := st, resp := Except.error ApiError.amountNotPositive }
      | some nAmount =>
        if nAmount ≤ 0 then
          { store := st, resp := Except.error ApiError.amountNotPositive }
        else
          { store := { st with reports := st.reports.map (applyUpdate id inp nAmount) }
            resp := Except.ok (applyUpdate id inp nAmount existing) }

/-- The exact sixteen-character pattern the specification claims for the
timestamp: two digits, a dot, two digits, a dot, four digits, a single
space, two digits, a colon, two digits, written from the words of the
claim rather than from the source. -/
def specExactPattern (s : String) : Bool :=
  match s.data with
  | [d1, d2, '.', m1, m2, '.', y1, y2, y3, y4, ' ', h1, h2, ':', i1, i2] =>
    isDigit d1 && isDigit d2 && isDigit m1 && isDigit m2 &&
      isDigit y1 && isDigit y2 && isDigit y3 && isDigit y4 &&
      isDigit h1 && isDigit h2 && isDigit i1 && isDigit i2
  | _ => false

/-- Shape of character lists the timestamp matcher accepts: the date
part, one or more whitespace characters, the time part. -/
def relaxedAux (l : List Char) : Prop :=
  ∃ d1 d2 m1 m2 y1 y2 y3 y4 ws h1 h2 i1 i2,
    (isDigit d1 && isDigit d2 && isDigit m1 && isDigit m2 &&
      isDigit y1 && isDigit y2 && isDigit y3 && isDigit y4 &&
      isDigit h1 && isDigit h2 && isDigit i1 && isDigit i2) = true ∧
    ws ≠ [] ∧ (∀ c ∈ ws, isWs c = true) ∧
    l = [d1, d2, '.', m1, m2, '.', y1, y2, y3, y4] ++ ws ++ [h1, h2, ':', i1, i2]

/-- The amended acceptance condition for parseRuDT: the trimmed input has
the relaxed timestamp shape. -/
def relaxedRu (s : String) : Prop :=
  relaxedAux (jsTrim s.data)

/-- The calendar-naive instant of a given civil date and time of day, in
minutes since the Unix epoch; used to state what a parsed timestamp is
equal to. -/
def mkInstant (y m d h mi : Int) : Int :=
  daysFromCivil y m d * 1440 + h * 60 + mi

/-- The split function exactly as claim C6 words it: the delimiter is
looked up in the raw text, the code is the trimmed text before its first
occurrence and the name is the trimmed text after it. -/
def splitRestaurantClaim (t : String) : RestSplit :=
  match findSub emDelim t.data with
  | none => { code := "", name := String.mk (jsTrim t.data) }
  | some i =>
    { code := String.mk (jsTrim (t.data.take i))
      name := String.mk (jsTrim (t.data.drop (i + emDelim.length))) }

/-- The amended reading of claim C6: the delimiter is looked up in the
trimmed text and the first occurrence inside the trimmed text splits. -/
def splitRestaurantTrimmedSpec (t : String) : RestSplit :=
  let s := jsTrim t.data
  match findSub emDelim s with
  | none => { code := "", name := String.mk s }
  | some i =>
    { code := String.mk (jsTrim (s.take i))
      name := String.mk (jsTrim (s.drop (i + emDelim.length))) }

/-- The UUID supply of a store has not collided with any stored identity
and never will: every supply value from the counter on is absent from the
stored rows. Insertion of freshly drawn identities preserves this. -/
def uuidFresh (st : Store) : Prop :=
  ∀ k, st.uuidCounter ≤ k → ∀ r ∈ st.reports, r.request_id ≠ randomUUID k

/-- The uniqueness constraint of the request_id column. -/
def uniqueIds (st : Store) : Prop :=
  st.reports.Pairwise (fun a b => a.request_id ≠ b.request_id)

/-- The required fields of a create body pass the truthiness check. -/
def requiredOk (inp : CreateInput) : Prop :=
  truthy inp.manager = true ∧ truthy inp.restaurant = true ∧ truthy inp.reason = true

/-- The required fields of an update body pass the truthiness check. -/
def requiredOkU (inp : UpdateInput) : Prop :=
  truthy inp.manager = true ∧ truthy inp.restaurant = true ∧ truthy inp.reason = true

/-- The create body carries no usable explicit identity, so the handler
draws a random UUID. -/
def noExplicitRid (inp : CreateInput) : Prop :=
  explicitRid inp = none

/-- A store with no rows and fresh sequences. -/
def emptyStore : Store :=
  { reports := [], nextId := 1, uuidCounter := 0 }

/-- A well-formed create body with no explicit identity whose amount is
three tenths: positive, finite, below one half. -/
def smallAmountInput : CreateInput :=
  { manager := some "Ivan", restaurant := some "01 — Astana", reason := some "spill"
    amount := some (mkRat 3 10), start := none, end_ := none, comment := none
    request_id := none }

/-- A create body whose manager is a single space: truthy, so it passes
the required-field check, but it trims to the empty string. -/
def blankManagerInput : CreateInput :=
  { manager := some " ", restaurant := some "R1", reason := some "theft"
    amount := some 5, start := none, end_ := none, comment := none
    request_id := none }

/-- A plain valid create body with no explicit identity. -/
def plainInput : CreateInput :=
  { manager := some "Ivan", restaurant := some "01 — Astana", reason := some "spill"
    amount := some 1500, start := some "07.01.2026 10:00", end_ := some "07.01.2026 11:00"
    comment := some "wet floor", request_id := none }

/-- The same valid body carrying the explicit identity r1. -/
def explicitInput : CreateInput :=
  { plainInput with request_id := some "r1" }

/-- A row stored under the client identity r1. -/
def dupRow : Report :=
  { id := 1, request_id := Sum.inl "r1", manager := "Old", restaurant := "R0"
    reason := "old", comment := "", start := "", end_ := "", amount := 9
    created_at := 1 }

/-- A store already holding dupRow, with sequences past it. -/
def dupStore : Store :=
  { reports := [dupRow], nextId := 2, uuidCounter := 0 }

/-- A well-formed update body. -/
def updInput : UpdateInput :=
  { manager := some "New", restaurant := some "R2", reason := some "waste"
    amount := some 7, start := some "08.01.2026 09:00", end_ := some "08.01.2026 10:00"
    comment := some "edited" }

/-- A create body with a negative amount. -/
def negAmountInput : CreateInput :=
  { manager := some "Ivan", restaurant := some "R1", reason := some "spill"
    amount := some (mkRat (-3) 1), start := none, end_ := none, comment := none
    request_id := none }

/-- The integer formula of jsRound is the floor of the argument plus one
half, which is the JavaScript Math.round rule on exact values. -/
theorem jsRound_eq_floor (q : ℚ) : jsRound q = Int.floor (q + 1 / 2) := by
  have hd0 : (0 : ℚ) < (q.den : ℚ) := by
    exact_mod_cast q.den_pos
  have key : q + 1 / 2 = ((2 * q.num + (q.den : Int) : Int) : ℚ) / ((2 * q.den : ℕ) : ℚ) := by
    conv_lhs => rw [← Rat.num_div_den q]
    push_cast
    field_simp
    ring
  rw [key, Rat.floor_intCast_div_natCast, jsRound]
  rw [Int.fdiv_eq_ediv _ (by positivity)]
  norm_cast

/-- Rounding a positive rational never yields a negative integer. -/
theorem jsRound_nonneg {q : ℚ} (h : 0 < q) : 0 ≤ jsRound q := by
  rw [jsRound_eq_floor]
  exact Int.le_floor.mpr (by push_cast; linarith)

/-- Rounding a rational of at least one half yields a positive integer. -/
theorem jsRound_pos {q : ℚ} (h : 1 / 2 ≤ q) : 1 ≤ jsRound q := by
  rw [jsRound_eq_floor]
  exact Int.le_floor.mpr (by push_cast; linarith)

/-- Rounding a positive rational below one half yields zero. -/
theorem jsRound_eq_zero {q : ℚ} (h0 : 0 < q) (h1 : q < 1 / 2) : jsRound q = 0 := by
  rw [jsRound_eq_floor]
  rw [Int.floor_eq_iff]
  constructor
  · push_cast
    linarith
  · push_cast
    linarith

theorem tw_app {p : Char → Bool} {ws t : List Char} (h : ∀ c ∈ ws, p c = true) :
    List.takeWhile p (ws ++ t) = ws ++ List.takeWhile p t := by
  induction ws with
  | nil => simp
  | cons a as ih =>
    simp only [List.cons_append, List.takeWhile_cons, h a (by simp)]
    simp [ih (fun c hc => h c (by simp [hc]))]
theorem dw_app {p : Char → Bool} {ws t : List Char} (h : ∀ c ∈ ws, p c = true) :
    List.dropWhile p (ws ++ t) = List.dropWhile p t := by
  induction ws with
  | nil => simp
  | cons a as ih =>
    simp only [List.cons_append, List.dropWhile_cons, h a (by simp)]
    simp [ih (fun c hc => h c (by simp [hc]))]
theorem notWs_of_digit {c : Char} (h : isDigit c = true) : isWs c = false := by
  cases hb : isWs c
  · rfl
  · exfalso
    simp only [isWs, Bool.or_eq_true, decide_eq_true_eq] at hb
    rcases hb with ((rfl | rfl) | rfl) | rfl <;> exact absurd h (by decide)
theorem matchRu_forward {l : List Char} (h : (matchRu l).isSome = true) : relaxedAux l := by
  rw [Option.isSome_iff_exists] at h
  obtain ⟨v, hv⟩ := h
  unfold matchRu at hv
  split at hv
  case h_2 => exact absurd hv (by simp)
  case h_1 d1 d2 m1 m2 y1 y2 y3 y4 rest =>
    split at hv
    case isFalse => exact absurd hv (by simp)
    case isTrue hdig =>
      split at hv
      case h_2 => exact absurd hv (by simp)
      case h_1 w ws2 h1 h2 i1 i2 heq1 heq2 =>
        split at hv
        case isFalse => exact absurd hv (by simp)
        case isTrue hdig2 =>
          refine ⟨d1, d2, m1, m2, y1, y2, y3, y4, rest.takeWhile isWs, h1, h2, i1, i2, ?_, ?_, ?_, ?_⟩
          · simp only [Bool.and_eq_true] at hdig hdig2 ⊢
            tauto
          · rw [heq1]
            simp
          · intro c hc
            exact List.mem_takeWhile_imp hc
          · have hsplit : rest = List.takeWhile isWs rest ++ List.dropWhile isWs rest :=
              (List.takeWhile_append_dropWhile (p := isWs) (l := rest)).symm
            rw [heq2] at hsplit
            conv_lhs => rw [hsplit]
            simp

theorem matchRu_backward {l : List Char} (h : relaxedAux l) : (matchRu l).isSome = true := by
  obtain ⟨d1, d2, m1, m2, y1, y2, y3, y4, ws, h1, h2, i1, i2, hdig, hne, hall, rfl⟩ := h
  obtain ⟨w, ws2, rfl⟩ := List.exists_cons_of_ne_nil hne
  simp only [Bool.and_eq_true] at hdig
  obtain ⟨⟨⟨⟨⟨⟨⟨⟨⟨⟨⟨hd1, hd2⟩, hm1⟩, hm2⟩, hy1⟩, hy2⟩, hy3⟩, hy4⟩, hhd1⟩, hhd2⟩, hid1⟩, hid2⟩ := hdig
  have hwh1 : isWs h1 = false := notWs_of_digit hhd1
  have htw : List.takeWhile isWs ((w :: ws2) ++ [h1, h2, ':', i1, i2]) = w :: ws2 := by
    rw [tw_app hall]
    simp [List.takeWhile_cons, hwh1]
  have hdw : List.dropWhile isWs ((w :: ws2) ++ [h1, h2, ':', i1, i2]) = [h1, h2, ':', i1, i2] := by
    rw [dw_app hall]
    simp [List.dropWhile_cons, hwh1]
  show (matchRu (d1 :: d2 :: '.' :: m1 :: m2 :: '.' :: y1 :: y2 :: y3 :: y4 :: ((w :: ws2) ++ [h1, h2, ':', i1, i2]))).isSome = true
  simp only [matchRu]
  rw [htw, hdw]
  simp [hd1, hd2, hm1, hm2, hy1, hy2, hy3, hy4, hhd1, hhd2, hid1, hid2]

theorem intercalate_single (a : List Char) : List.intercalate emDelim [a] = a := by
  simp [List.intercalate]

theorem intercalate_cc (a b : List Char) (t : List (List Char)) :
    List.intercalate emDelim (a :: b :: t) = a ++ emDelim ++ List.intercalate emDelim (b :: t) := by
  simp [List.intercalate, List.intersperse_cons_cons]

theorem leadsWith_emDelim_iff (l : List Char) :
    leadsWith emDelim l = true ↔ ∃ rest, l = ' ' :: '—' :: ' ' :: rest := by
  rcases l with _ | ⟨a, _ | ⟨b, _ | ⟨c, rest⟩⟩⟩
  · simp [leadsWith, emDelim]
  · simp [leadsWith, emDelim]
  · simp [leadsWith, emDelim]
  · constructor
    · intro h
      simp [leadsWith, emDelim] at h
      obtain ⟨rfl, rfl, rfl⟩ := h
      exact ⟨rest, rfl⟩
    · rintro ⟨r1, heq⟩
      simp at heq
      obtain ⟨rfl, rfl, rfl, rfl⟩ := heq
      simp [leadsWith, emDelim]

theorem findSub_cons_neg {c : Char} {rest : List Char}
    (h : leadsWith emDelim (c :: rest) = false) :
    findSub emDelim (c :: rest) = (findSub emDelim rest).map (fun n => n + 1) := by
  simp [findSub, h]

theorem jsSplitEm_parts (l : List Char) :
    jsSplitEm l ≠ [] ∧ List.intercalate emDelim (jsSplitEm l) = l := by
  induction l using jsSplitEm.induct with
  | case1 rest ih =>
    obtain ⟨hne, hj⟩ := ih
    obtain ⟨p, ps, hps⟩ := List.exists_cons_of_ne_nil hne
    refine ⟨by simp [jsSplitEm], ?_⟩
    rw [show jsSplitEm (' ' :: '—' :: ' ' :: rest) = [] :: jsSplitEm rest from rfl, hps]
    rw [intercalate_cc]
    rw [← hps, hj]
    rfl
  | case2 c rest hno hnil ih => exact absurd hnil ih.1
  | case3 c rest hno p ps heq ih =>
    obtain ⟨hne, hj⟩ := ih
    have hred : jsSplitEm (c :: rest) = (c :: p) :: ps := by
      unfold jsSplitEm
      split
      · rename_i r1 h1
        exfalso
        injection h1 with ha hb
        exact hno r1 ha hb
      · rename_i c2 rest2 hno2 heq2
        injection heq2 with ha hb
        subst ha
        subst hb
        rw [heq]
      · rename_i h1
        exact absurd h1 (by simp)
    refine ⟨by simp [hred], ?_⟩
    rw [hred]
    rcases ps with _ | ⟨q, qs⟩
    · rw [intercalate_single]
      rw [heq] at hj
      rw [intercalate_single] at hj
      rw [hj]
    · rw [intercalate_cc]
      rw [heq] at hj
      rw [intercalate_cc] at hj
      simp only [List.cons_append, List.append_assoc] at hj ⊢
      rw [hj]
  | case4 => exact ⟨by simp [jsSplitEm], by simp [jsSplitEm, intercalate_single]⟩

theorem jsSplitEm_head_tail (l : List Char) :
    ∀ i, findSub emDelim l = some i →
      (jsSplitEm l).headD [] = l.take i ∧
      List.intercalate emDelim ((jsSplitEm l).drop 1) = l.drop (i + 3) := by
  induction l using jsSplitEm.induct with
  | case1 rest ih =>
    intro i hi
    have hlw : leadsWith emDelim (' ' :: '—' :: ' ' :: rest) = true := by
      simp [leadsWith, emDelim]
    rw [show findSub emDelim (' ' :: '—' :: ' ' :: rest) = some 0 by simp [findSub, hlw]] at hi
    injection hi with hi0
    subst hi0
    refine ⟨by simp [jsSplitEm], ?_⟩
    rw [show jsSplitEm (' ' :: '—' :: ' ' :: rest) = [] :: jsSplitEm rest from rfl]
    simp only [List.drop_one, List.tail_cons]
    exact (jsSplitEm_parts rest).2
  | case2 c rest hno hnil ih => exact absurd hnil (jsSplitEm_parts rest).1
  | case3 c rest hno p ps heq ih =>
    intro i hi
    have hlw : leadsWith emDelim (c :: rest) = false := by
      cases hb : leadsWith emDelim (c :: rest)
      · rfl
      · exfalso
        obtain ⟨r1, hshape⟩ := (leadsWith_emDelim_iff _).mp hb
        injection hshape with ha hb2
        exact hno r1 ha hb2
    rw [findSub_cons_neg hlw] at hi
    rw [Option.map_eq_some'] at hi
    obtain ⟨j, hj, hji⟩ := hi
    subst hji
    obtain ⟨hhead, htail⟩ := ih j hj
    have hred : jsSplitEm (c :: rest) = (c :: p) :: ps := by
      unfold jsSplitEm
      split
      · rename_i r1 h1
        exfalso
        injection h1 with ha hb
        exact hno r1 ha hb
      · rename_i c2 rest2 hno2 heq2
        injection heq2 with ha hb
        subst ha
        subst hb
        rw [heq]
      · rename_i h1
        exact absurd h1 (by simp)
    rw [heq] at hhead htail
    constructor
    · rw [hred]
      simp only [List.headD_cons, List.take_succ_cons]
      simp only [List.headD_cons] at hhead
      rw [hhead]
    · rw [hred]
      simp only [List.drop_one, List.tail_cons]
      simp only [List.drop_one, List.tail_cons] at htail
      rw [htail]
      simp [List.drop_succ_cons]
  | case4 =>
    intro i hi
    simp [findSub, leadsWith, emDelim] at hi

theorem find?_append_single {l : List Report} {p : Report → Bool} (h : l.find? p = none)
    {x : Report} (hx : p x = true) : (l ++ [x]).find? p = some x := by
  induction l with
  | nil => simp [List.find?, hx]
  | cons a t ih =>
    rw [List.find?_cons] at h
    rcases hp : p a with _ | _
    · rw [hp] at h
      simp only [List.cons_append, List.find?_cons, hp]
      exact ih h
    · rw [hp] at h
      simp at h

theorem find?_of_unique {l : List Report}
    (h : l.Pairwise (fun a b => a.request_id ≠ b.request_id)) {r : Report} (hr : r ∈ l)
    {rid : RequestId} (hrid : r.request_id = rid) :
    l.find? (fun x => decide (x.request_id = rid)) = some r := by
  induction l with
  | nil => cases hr
  | cons a t ih =>
    rcases List.mem_cons.mp hr with rfl | hmem
    · exact List.find?_cons_of_pos _ (by simp [hrid])
    · have hne : a.request_id ≠ rid := by
        have hx := (List.pairwise_cons.mp h).1 r hmem
        rw [hrid] at hx
        exact hx
      rw [List.find?_cons_of_neg _ (by simp [hne])]
      exact ih (List.pairwise_cons.mp h).2 hmem

theorem any_eq_false_iff_find?_none {l : List Report} {p : Report → Bool} :
    l.any p = false ↔ l.find? p = none := by
  rw [List.find?_eq_none]
  rw [← Bool.not_eq_true, List.any_eq_true]
  constructor
  · intro h x hx hpx
    exact h ⟨x, hx, hpx⟩
  · rintro h ⟨x, hx, hpx⟩
    exact h x hx hpx

theorem createReport_required_fail (cfg ok : Bool) (now : Int) (inp : CreateInput) (st : Store)
    (h : ¬ requiredOk inp) :
    createReport cfg ok now inp st =
      { store := st, resp := Except.error ApiError.requiredMissing, notified := 0 } := by
  unfold createReport
  have : (!truthy inp.manager || !truthy inp.restaurant || !truthy inp.reason) = true := by
    unfold requiredOk at h
    rcases hm : truthy inp.manager <;> rcases hr : truthy inp.restaurant <;>
      rcases hs : truthy inp.reason <;> simp_all
  rw [if_pos this]

theorem createReport_amount_fail (cfg ok : Bool) (now : Int) (inp : CreateInput) (st : Store)
    (hreq : requiredOk inp) (h : inp.amount = none ∨ ∃ a, inp.amount = some a ∧ a ≤ 0) :
    createReport cfg ok now inp st =
      { store := st, resp := Except.error ApiError.amountNotPositive, notified := 0 } := by
  obtain ⟨h1, h2, h3⟩ := hreq
  unfold createReport
  rw [if_neg (by simp [h1, h2, h3])]
  rcases h with hn | ⟨a, ha, hle⟩
  · rw [hn]
  · rw [ha]
    simp only [if_pos hle]

theorem createReport_insert (cfg ok : Bool) (now : Int) (inp : CreateInput) (st : Store) (a : ℚ)
    (hreq : requiredOk inp) (hA : inp.amount = some a) (ha : 0 < a) (rid : RequestId)
    (hrid : (match explicitRid inp with
             | some t => Sum.inl t
             | none => randomUUID st.uuidCounter) = rid)
    (hconf : st.reports.any (fun r => decide (r.request_id = rid)) = false) :
    createReport cfg ok now inp st =
      { store :=
          { reports := st.reports ++ [newReportRow now inp a rid st]
            nextId := st.nextId + 1
            uuidCounter :=
              match explicitRid inp with
              | some _ => st.uuidCounter
              | none => st.uuidCounter + 1 }
        resp := Except.ok (some (newReportRow now inp a rid st))
        notified := if cfg then 1 else 0 } := by
  obtain ⟨h1, h2, h3⟩ := hreq
  have hfind : (st.reports ++ [newReportRow now inp a rid st]).find?
      (fun r => decide (r.request_id = rid)) = some (newReportRow now inp a rid st) := by
    apply find?_append_single (any_eq_false_iff_find?_none.mp hconf)
    simp [newReportRow]
  unfold createReport
  rw [if_neg (by simp [h1, h2, h3]), hA]
  simp only [if_neg (not_le.mpr ha), hrid, hconf, Bool.false_eq_true, if_false, hfind,
    Option.isSome_some, Bool.and_true]

theorem createReport_conflict (cfg ok : Bool) (now : Int) (inp : CreateInput) (st : Store) (a : ℚ)
    (hreq : requiredOk inp) (hA : inp.amount = some a) (ha : 0 < a) (rid : RequestId)
    (hrid : (match explicitRid inp with
             | some t => Sum.inl t
             | none => randomUUID st.uuidCounter) = rid)
    (hconf : st.reports.any (fun r => decide (r.request_id = rid)) = true) :
    createReport cfg ok now inp st =
      { store :=
          { st with uuidCounter :=
              match explicitRid inp with
              | some _ => st.uuidCounter
              | none => st.uuidCounter + 1 }
        resp := Except.ok (st.reports.find? (fun r => decide (r.request_id = rid)))
        notified := if cfg then 1 else 0 } := by
  obtain ⟨h1, h2, h3⟩ := hreq
  have hsome : (st.reports.find? (fun r => decide (r.request_id = rid))).isSome = true := by
    rw [List.find?_isSome]
    rw [List.any_eq_true] at hconf
    exact hconf
  unfold createReport
  rw [if_neg (by simp [h1, h2, h3]), hA]
  simp only [if_neg (not_le.mpr ha), hrid, hconf, if_true, hsome, Bool.and_true]

theorem updateReport_notFound (id : Int) (inp : UpdateInput) (st : Store)
    (h : st.reports.find? (fun r => decide ((r.id : Int) = id)) = none) :
    updateReport id inp st = { store := st, resp := Except.error ApiError.notFound } := by
  unfold updateReport
  rw [h]

theorem updateReport_required_fail (id : Int) (inp : UpdateInput) (st : Store) (existing : Report)
    (hfind : st.reports.find? (fun r => decide ((r.id : Int) = id)) = some existing)
    (h : ¬ requiredOkU inp) :
    updateReport id inp st = { store := st, resp := Except.error ApiError.requiredMissing } := by
  have hc : (!truthy inp.manager || !truthy inp.restaurant || !truthy inp.reason) = true := by
    unfold requiredOkU at h
    rcases hm : truthy inp.manager <;> rcases hr : truthy inp.restaurant <;>
      rcases hs : truthy inp.reason <;> simp_all
  unfold updateReport
  rw [hfind]
  simp only [if_pos hc]

theorem updateReport_amount_fail (id : Int) (inp : UpdateInput) (st : Store) (existing : Report)
    (hfind : st.reports.find? (fun r => decide ((r.id : Int) = id)) = some existing)
    (hreq : requiredOkU inp) (h : inp.amount = none ∨ ∃ a, inp.amount = some a ∧ a ≤ 0) :
    updateReport id inp st = { store := st, resp := Except.error ApiError.amountNotPositive } := by
  obtain ⟨h1, h2, h3⟩ := hreq
  unfold updateReport
  rw [hfind]
  simp only [if_neg (by simp [h1, h2, h3] :
    ¬(!truthy inp.manager || !truthy inp.restaurant || !truthy inp.reason) = true)]
  rcases h with hn | ⟨a, ha, hle⟩
  · rw [hn]
  · rw [ha]
    simp only [if_pos hle]

theorem updateReport_ok (id : Int) (inp : UpdateInput) (st : Store) (existing : Report) (a : ℚ)
    (hfind : st.reports.find? (fun r => decide ((r.id : Int) = id)) = some existing)
    (hreq : requiredOkU inp) (hA : inp.amount = some a) (ha : 0 < a) :
    updateReport id inp st =
      { store := { st with reports := st.reports.map (applyUpdate id inp a) }
        resp := Except.ok (applyUpdate id inp a existing) } := by
  obtain ⟨h1, h2, h3⟩ := hreq
  unfold updateReport
  rw [hfind]
  simp only [if_neg (by simp [h1, h2, h3] :
    ¬(!truthy inp.manager || !truthy inp.restaurant || !truthy inp.reason) = true), hA]
  simp only [if_neg (not_le.mpr ha)]

theorem createReport_reports_cases (cfg ok : Bool) (now : Int) (inp : CreateInput) (st : Store) :
    (createReport cfg ok now inp st).store.reports = st.reports ∨
    ∃ a rid, inp.amount = some a ∧
      (createReport cfg ok now inp st).store.reports =
        st.reports ++ [newReportRow now inp a rid st] := by
  by_cases hreq : requiredOk inp
  · rcases hA : inp.amount with _ | a
    · rw [createReport_amount_fail cfg ok now inp st hreq (Or.inl hA)]
      exact Or.inl rfl
    · by_cases ha : a ≤ 0
      · rw [createReport_amount_fail cfg ok now inp st hreq (Or.inr ⟨a, hA, ha⟩)]
        exact Or.inl rfl
      · set rid := (match explicitRid inp with
          | some t => Sum.inl t
          | none => randomUUID st.uuidCounter : RequestId) with hrid
        rcases hconf : st.reports.any (fun r => decide (r.request_id = rid)) with _ | _
        · rw [createReport_insert cfg ok now inp st a hreq hA (not_le.mp ha) rid hrid.symm hconf]
          exact Or.inr ⟨a, rid, rfl, rfl⟩
        · rw [createReport_conflict cfg ok now inp st a hreq hA (not_le.mp ha) rid hrid.symm hconf]
          exact Or.inl rfl
  · rw [createReport_required_fail cfg ok now inp st hreq]
    exact Or.inl rfl

theorem updateReport_reports_cases (id : Int) (inp : UpdateInput) (st : Store) :
    (updateReport id inp st).store.reports = st.reports ∨
    ∃ a, inp.amount = some a ∧
      (updateReport id inp st).store.reports = st.reports.map (applyUpdate id inp a) := by
  rcases hfind : st.reports.find? (fun r => decide ((r.id : Int) = id)) with _ | existing
  · rw [updateReport_notFound id inp st hfind]
    exact Or.inl rfl
  · by_cases hreq : requiredOkU inp
    · rcases hA : inp.amount with _ | a
      · rw [updateReport_amount_fail id inp st existing hfind hreq (Or.inl hA)]
        exact Or.inl rfl
      · by_cases ha : a ≤ 0
        · rw [updateReport_amount_fail id inp st existing hfind hreq (Or.inr ⟨a, hA, ha⟩)]
          exact Or.inl rfl
        · rw [updateReport_ok id inp st existing a hfind hreq hA (not_le.mp ha)]
          exact Or.inr ⟨a, rfl, rfl⟩
    · rw [updateReport_required_fail id inp st existing hfind hreq]
      exact Or.inl rfl

theorem uuidFresh_conflict_false {st : Store} (hfresh : uuidFresh st) {k : Nat}
    (hk : st.uuidCounter ≤ k) :
    st.reports.any (fun r => decide (r.request_id = randomUUID k)) = false := by
  rcases hb : st.reports.any (fun r => decide (r.request_id = randomUUID k))
  · rfl
  · exfalso
    rw [List.any_eq_true] at hb
    obtain ⟨r, hrm, hpr⟩ := hb
    rw [decide_eq_true_eq] at hpr
    exact hfresh k hk r hrm hpr

/-- Claim C1, corrected: with no explicit identity, each createReport
call draws a fresh identity from the UUID supply, so two calls with
identical normalized field values store two distinct rows with two
different request identities; the derived identity is not a function of
the field values. -/
theorem claim_C1 (cfg ok : Bool) (now1 now2 : Int) (inp : CreateInput) (st : Store) (a : ℚ)
    (hfresh : uuidFresh st) (hreq : requiredOk inp) (hA : inp.amount = some a) (ha : 0 < a)
    (hrid : noExplicitRid inp) :
    (createReport cfg ok now1 inp st).store.reports =
      st.reports ++ [newReportRow now1 inp a (randomUUID st.uuidCounter) st] ∧
    (createReport cfg ok now2 inp (createReport cfg ok now1 inp st).store).store.reports =
      st.reports ++ [newReportRow now1 inp a (randomUUID st.uuidCounter) st] ++
        [newReportRow now2 inp a (randomUUID (st.uuidCounter + 1))
          (createReport cfg ok now1 inp st).store] ∧
    randomUUID st.uuidCounter ≠ randomUUID (st.uuidCounter + 1) ∧
    (createReport cfg ok now2 inp (createReport cfg ok now1 inp st).store).store.reports.length =
      st.reports.length + 2 := by
  have ha' : ¬ a ≤ 0 := not_le.mpr ha
  have hrid1 : (match explicitRid inp with
      | some t => Sum.inl t
      | none => randomUUID st.uuidCounter) = randomUUID st.uuidCounter := by
    rw [hrid]
  have hconf1 := uuidFresh_conflict_false hfresh (le_refl st.uuidCounter)
  have h1 := createReport_insert cfg ok now1 inp st a hreq hA ha
    (randomUUID st.uuidCounter) hrid1 hconf1
  have hst1 : (createReport cfg ok now1 inp st).store =
      { reports := st.reports ++ [newReportRow now1 inp a (randomUUID st.uuidCounter) st]
        nextId := st.nextId + 1
        uuidCounter := st.uuidCounter + 1 } := by
    rw [h1, hrid]
  have hrid2 : (match explicitRid inp with
      | some t => Sum.inl t
      | none => randomUUID (createReport cfg ok now1 inp st).store.uuidCounter) =
      randomUUID (st.uuidCounter + 1) := by
    rw [hrid, hst1]
  have hconf2 : (createReport cfg ok now1 inp st).store.reports.any
      (fun r => decide (r.request_id = randomUUID (st.uuidCounter + 1))) = false := by
    rw [hst1]
    simp only [List.any_append, Bool.or_eq_false_iff]
    constructor
    · exact uuidFresh_conflict_false hfresh (Nat.le_succ st.uuidCounter)
    · simp [newReportRow, randomUUID]
  have h2 := createReport_insert cfg ok now2 inp (createReport cfg ok now1 inp st).store a
    hreq hA ha (randomUUID (st.uuidCounter + 1)) hrid2 hconf2
  refine ⟨?_, ?_, by simp [randomUUID], ?_⟩
  · rw [h1]
  · rw [h2, hst1]
  · rw [h2, hst1]
    simp

theorem no_match_conflict_false {st : Store} {rid : RequestId}
    (hall : ∀ r0 ∈ st.reports, r0.request_id ≠ rid) :
    st.reports.any (fun r => decide (r.request_id = rid)) = false := by
  rcases hb : st.reports.any (fun r => decide (r.request_id = rid))
  · rfl
  · exfalso
    rw [List.any_eq_true] at hb
    obtain ⟨r, hrm, hpr⟩ := hb
    rw [decide_eq_true_eq] at hpr
    exact hall r hrm hpr

/-- Claim C1 witness at a concrete run. -/
theorem claim_C1_witness :
    (createReport false false 20 plainInput
        (createReport false false 10 plainInput emptyStore).store).store.reports.length =
      emptyStore.reports.length + 2 :=
  (claim_C1 false false 10 20 plainInput emptyStore 1500
    (fun _ _ r hr => absurd hr (List.not_mem_nil r)) ⟨rfl, rfl, rfl⟩ rfl (by decide)
    rfl).2.2.2

/-- Claim C1 counterexample: the two calls store two rows under two
distinct request identities. -/
theorem claim_C1_counterexample :
    ((createReport false false 10 plainInput emptyStore).store.reports.map
        (fun r => r.request_id)) = [Sum.inr 0] ∧
    ((createReport false false 20 plainInput
        (createReport false false 10 plainInput emptyStore).store).store.reports.map
        (fun r => r.request_id)) = [Sum.inr 0, Sum.inr 1] ∧
    (Sum.inr 0 : RequestId) ≠ Sum.inr 1 := by decide

/-- Claim C7: insert-if-absent keyed by the explicit trimmed identity. -/
theorem claim_C7 (cfg ok : Bool) (now : Int) (inp : CreateInput) (st : Store) (a : ℚ) (e : String)
    (huniq : uniqueIds st) (hreq : requiredOk inp) (hA : inp.amount = some a) (ha : 0 < a)
    (hrid : inp.request_id = some e) (he : jsTrimS e ≠ "") :
    (∀ r0 ∈ st.reports, r0.request_id = Sum.inl (jsTrimS e) →
        (createReport cfg ok now inp st).store = st ∧
        (createReport cfg ok now inp st).resp = Except.ok (some r0)) ∧
    ((∀ r0 ∈ st.reports, r0.request_id ≠ Sum.inl (jsTrimS e)) →
        (createReport cfg ok now inp st).store.reports =
          st.reports ++ [newReportRow now inp a (Sum.inl (jsTrimS e)) st] ∧
        (createReport cfg ok now inp st).store.nextId = st.nextId + 1 ∧
        (newReportRow now inp a (Sum.inl (jsTrimS e)) st).id = st.nextId ∧
        (newReportRow now inp a (Sum.inl (jsTrimS e)) st).created_at = now ∧
        (createReport cfg ok now inp st).resp =
          Except.ok (some (newReportRow now inp a (Sum.inl (jsTrimS e)) st))) := by
  have hex : explicitRid inp = some (jsTrimS e) := by
    have he2 : e ≠ "" := by
      intro h
      apply he
      rw [h]
      rfl
    unfold explicitRid
    rw [hrid]
    simp only [if_neg he2, if_neg he]
  have hridm : (match explicitRid inp with
      | some t => Sum.inl t
      | none => randomUUID st.uuidCounter) = Sum.inl (jsTrimS e) := by
    rw [hex]
  constructor
  · intro r0 hr0 hreq0
    have hconf : st.reports.any (fun r => decide (r.request_id = Sum.inl (jsTrimS e))) = true := by
      rw [List.any_eq_true]
      exact ⟨r0, hr0, by simp [hreq0]⟩
    have h := createReport_conflict cfg ok now inp st a hreq hA ha _ hridm hconf
    rw [h]
    constructor
    · simp [hex]
    · simp [find?_of_unique huniq hr0 hreq0]
  · intro hall
    have h := createReport_insert cfg ok now inp st a hreq hA ha _ hridm
      (no_match_conflict_false hall)
    rw [h]
    exact ⟨rfl, by simp [hex], rfl, rfl, rfl⟩

/-- Claim C7 witness at a concrete duplicate run. -/
theorem claim_C7_witness :
    (createReport false false 99 explicitInput dupStore).store = dupStore ∧
    (createReport false false 99 explicitInput dupStore).resp = Except.ok (some dupRow) :=
  (claim_C7 false false 99 explicitInput dupStore 1500 "r1" (by simp [uniqueIds, dupStore])
    ⟨rfl, rfl, rfl⟩ rfl (by decide) rfl (by decide)).1 dupRow (by simp [dupStore]) (by decide)

/-- Claim C9, corrected: the create outcome is independent of notifier
success, the notifier runs at most once per call, and it runs exactly
when it is configured and the final select found a row, which includes
the duplicate-identity no-op case. -/
theorem claim_C9 (cfg ok1 ok2 : Bool) (now : Int) (inp : CreateInput) (st : Store) :
    createReport cfg ok1 now inp st = createReport cfg ok2 now inp st ∧
    (createReport cfg ok1 now inp st).notified ≤ 1 ∧
    ((createReport cfg ok1 now inp st).notified = 1 ↔
      cfg = true ∧ ∃ r, (createReport cfg ok1 now inp st).resp = Except.ok (some r)) := by
  have main : (createReport cfg ok1 now inp st).notified ≤ 1 ∧
      ((createReport cfg ok1 now inp st).notified = 1 ↔
        cfg = true ∧ ∃ r, (createReport cfg ok1 now inp st).resp = Except.ok (some r)) := by
    by_cases hreq : requiredOk inp
    · rcases hA : inp.amount with _ | a
      · rw [createReport_amount_fail cfg ok1 now inp st hreq (Or.inl hA)]
        simp
      · by_cases ha : a ≤ 0
        · rw [createReport_amount_fail cfg ok1 now inp st hreq (Or.inr ⟨a, hA, ha⟩)]
          simp
        · set rid := (match explicitRid inp with
            | some t => Sum.inl t
            | none => randomUUID st.uuidCounter : RequestId) with hridm
          rcases hconf : st.reports.any (fun r => decide (r.request_id = rid))
          · rw [createReport_insert cfg ok1 now inp st a hreq hA (not_le.mp ha) rid
              hridm.symm hconf]
            rcases cfg <;> simp
          · rw [createReport_conflict cfg ok1 now inp st a hreq hA (not_le.mp ha) rid
              hridm.symm hconf]
            have hsome : (st.reports.find? (fun r => decide (r.request_id = rid))).isSome = true := by
              rw [List.find?_isSome]
              rw [List.any_eq_true] at hconf
              exact hconf
            rw [Option.isSome_iff_exists] at hsome
            obtain ⟨r0, hr0⟩ := hsome
            rcases cfg <;> simp [hr0]
    · rw [createReport_required_fail cfg ok1 now inp st hreq]
      simp
  exact ⟨rfl, main.1, main.2⟩

/-- Claim C9 counterexample: a duplicate-identity no-op still notifies. -/
theorem claim_C9_counterexample :
    (createReport true true 50 explicitInput dupStore).store = dupStore ∧
    (createReport true true 50 explicitInput dupStore).notified = 1 := by decide

/-- Claim C9 witness at a concrete run. -/
theorem claim_C9_witness :
    (true : Bool) = true ∧
    ∃ r, (createReport true false 50 explicitInput dupStore).resp = Except.ok (some r) :=
  (claim_C9 true false false 50 explicitInput dupStore).2.2.mp (by decide)

/-- Claim C2, corrected: create and update reject a non-finite or
non-positive amount with a validation error and no write; a valid
positive amount is stored as its half-up rounding, which is nonnegative
and positive exactly when the amount is at least one half, so an amount
in the open interval from zero to one half is accepted and stored as
zero. -/
theorem claim_C2 :
    (∀ (cfg ok : Bool) (now : Int) (inp : CreateInput) (st : Store), requiredOk inp →
        (inp.amount = none ∨ ∃ a, inp.amount = some a ∧ a ≤ 0) →
        createReport cfg ok now inp st =
          { store := st, resp := Except.error ApiError.amountNotPositive, notified := 0 }) ∧
    (∀ (id : Int) (inp : UpdateInput) (st : Store) (existing : Report),
        st.reports.find? (fun r => decide ((r.id : Int) = id)) = some existing →
        requiredOkU inp →
        (inp.amount = none ∨ ∃ a, inp.amount = some a ∧ a ≤ 0) →
        updateReport id inp st =
          { store := st, resp := Except.error ApiError.amountNotPositive }) ∧
    (∀ (cfg ok : Bool) (now : Int) (inp : CreateInput) (st : Store) (a : ℚ),
        inp.amount = some a →
        ∀ r ∈ (createReport cfg ok now inp st).store.reports,
          r ∈ st.reports ∨ r.amount = jsRound a) ∧
    (∀ (id : Int) (inp : UpdateInput) (st : Store) (a : ℚ), inp.amount = some a →
        ∀ r ∈ (updateReport id inp st).store.reports,
          r ∈ st.reports ∨ r.amount = jsRound a) ∧
    (∀ a : ℚ, 0 < a → 0 ≤ jsRound a) ∧
    (∀ a : ℚ, 1 / 2 ≤ a → 1 ≤ jsRound a) ∧
    (∀ a : ℚ, 0 < a → a < 1 / 2 → jsRound a = 0) := by
  refine ⟨createReport_amount_fail, updateReport_amount_fail, ?_, ?_,
    fun a ha => jsRound_nonneg ha, fun a ha => jsRound_pos ha,
    fun a h0 h1 => jsRound_eq_zero h0 h1⟩
  · intro cfg ok now inp st a hA r hr
    rcases createReport_reports_cases cfg ok now inp st with hc | ⟨a2, rid, hA2, hc⟩
    · rw [hc] at hr
      exact Or.inl hr
    · rw [hc] at hr
      rcases List.mem_append.mp hr with h | h
      · exact Or.inl h
      · right
        have hra : r = newReportRow now inp a2 rid st := by
          simpa using h
        have haa : a2 = a := by
          rw [hA] at hA2
          injection hA2 with h2
          exact h2.symm
        rw [hra, haa]
        rfl
  · intro id inp st a hA r hr
    rcases updateReport_reports_cases id inp st with hc | ⟨a2, hA2, hc⟩
    · rw [hc] at hr
      exact Or.inl hr
    · rw [hc] at hr
      obtain ⟨r0, hr0, rfl⟩ := List.mem_map.mp hr
      have haa : a2 = a := by
        rw [hA] at hA2
        injection hA2 with h2
        exact h2.symm
      unfold applyUpdate
      by_cases hid : (r0.id : Int) = id
      · rw [if_pos hid, haa]
        right
        rfl
      · rw [if_neg hid]
        exact Or.inl hr0
/-- Claim C2 witness at concrete runs. -/
theorem claim_C2_witness :
    createReport false false 3 negAmountInput emptyStore =
      { store := emptyStore, resp := Except.error ApiError.amountNotPositive, notified := 0 } ∧
    (0 : Int) ≤ jsRound (mkRat 3 10) ∧ jsRound (mkRat 3 10) = 0 :=
  ⟨claim_C2.1 false false 3 negAmountInput emptyStore ⟨rfl, rfl, rfl⟩
      (Or.inr ⟨mkRat (-3) 1, rfl, by decide⟩),
    claim_C2.2.2.2.2.1 (mkRat 3 10) (by decide),
    claim_C2.2.2.2.2.2.2 (mkRat 3 10) (by decide) (by norm_num)⟩

/-- Claim C2 counterexample: the fractional amount three tenths passes
validation and is stored as zero, so a stored row with a non-positive
amount exists. -/
theorem claim_C2_counterexample :
    ((0 : ℚ) < mkRat 3 10) ∧
    ((createReport false false 7 smallAmountInput emptyStore).store.reports.map
        (fun r => r.amount)) = [0] ∧
    (createReport false false 7 smallAmountInput emptyStore).resp ≠
      Except.error ApiError.amountNotPositive := by decide

/-- Claim C3, corrected: create and update reject an absent or empty
manager, restaurant or reason with a validation error and no write, but
a whitespace-only value is truthy, passes the check, and is stored
trimmed, so stored rows can carry empty required fields. -/
theorem claim_C3 :
    (∀ (cfg ok : Bool) (now : Int) (inp : CreateInput) (st : Store), ¬ requiredOk inp →
        createReport cfg ok now inp st =
          { store := st, resp := Except.error ApiError.requiredMissing, notified := 0 }) ∧
    (∀ (id : Int) (inp : UpdateInput) (st : Store) (existing : Report),
        st.reports.find? (fun r => decide ((r.id : Int) = id)) = some existing →
        ¬ requiredOkU inp →
        updateReport id inp st =
          { store := st, resp := Except.error ApiError.requiredMissing }) ∧
    (∀ (cfg ok : Bool) (now : Int) (inp : CreateInput) (st : Store),
        ∀ r ∈ (createReport cfg ok now inp st).store.reports,
          r ∈ st.reports ∨
            (r.manager = jsTrimS (inp.manager.getD "") ∧
              r.restaurant = jsTrimS (inp.restaurant.getD "") ∧
              r.reason = jsTrimS (inp.reason.getD ""))) := by
  refine ⟨createReport_required_fail, updateReport_required_fail, ?_⟩
  intro cfg ok now inp st r hr
  rcases createReport_reports_cases cfg ok now inp st with hc | ⟨a2, rid, hA2, hc⟩
  · rw [hc] at hr
    exact Or.inl hr
  · rw [hc] at hr
    rcases List.mem_append.mp hr with h | h
    · exact Or.inl h
    · right
      have hra : r = newReportRow now inp a2 rid st := by
        simpa using h
      rw [hra]
      exact ⟨rfl, rfl, rfl⟩

/-- Claim C3 witness at a concrete run. -/
theorem claim_C3_witness :
    createReport false false 3 { plainInput with manager := none } emptyStore =
      { store := emptyStore, resp := Except.error ApiError.requiredMissing, notified := 0 } :=
  claim_C3.1 false false 3 { plainInput with manager := none } emptyStore
    (by intro h; exact absurd h.1 (by decide))

/-- Claim C3 counterexample: a single-space manager passes validation
and the stored row has an empty manager. -/
theorem claim_C3_counterexample :
    ((createReport false false 7 blankManagerInput emptyStore).store.reports.map
        (fun r => r.manager)) = [""] ∧
    (createReport false false 7 blankManagerInput emptyStore).resp ≠
      Except.error ApiError.requiredMissing := by decide

/-- Claim C10: the optional comment, start and end fields of every row
written by create are the falsy-defaulted strings, and an absent or
empty optional input defaults to the empty string, so create never
stores null-like values in those columns. -/
theorem claim_C10 (cfg ok : Bool) (now : Int) (inp : CreateInput) (st : Store) :
    (∀ r ∈ (createReport cfg ok now inp st).store.reports,
        r ∈ st.reports ∨
          (r.comment = orEmpty inp.comment ∧ r.start = orEmpty inp.start ∧
            r.end_ = orEmpty inp.end_)) ∧
    (∀ o : Option String, o = none ∨ o = some "" → orEmpty o = "") := by
  constructor
  · intro r hr
    rcases createReport_reports_cases cfg ok now inp st with hc | ⟨a2, rid, hA2, hc⟩
    · rw [hc] at hr
      exact Or.inl hr
    · rw [hc] at hr
      rcases List.mem_append.mp hr with h | h
      · exact Or.inl h
      · right
        have hra : r = newReportRow now inp a2 rid st := by
          simpa using h
        rw [hra]
        exact ⟨rfl, rfl, rfl⟩
  · rintro o (rfl | rfl)
    · rfl
    · rfl

/-- Claim C10 witness at a concrete run. -/
theorem claim_C10_witness :
    ((createReport false false 7 blankManagerInput emptyStore).store.reports.getLast?.getD dupRow
        ∈ emptyStore.reports ∨
      ((createReport false false 7 blankManagerInput emptyStore).store.reports.getLast?.getD
          dupRow).comment = orEmpty blankManagerInput.comment ∧
        ((createReport false false 7 blankManagerInput emptyStore).store.reports.getLast?.getD
            dupRow).start = orEmpty blankManagerInput.start ∧
        ((createReport false false 7 blankManagerInput emptyStore).store.reports.getLast?.getD
            dupRow).end_ = orEmpty blankManagerInput.end_) ∧
    orEmpty none = "" :=
  ⟨(claim_C10 false false 7 blankManagerInput emptyStore).1 _ (by decide),
    (claim_C10 false false 7 blankManagerInput emptyStore).2 none (Or.inl rfl)⟩

theorem jsRound_intCast (n : Int) : jsRound ((n : Int) : ℚ) = n := by
  rw [jsRound_eq_floor]
  rw [Int.floor_eq_iff]
  constructor
  · push_cast
    linarith
  · push_cast
    linarith

/-- Claim C8: update answers not found with no write when no row has the
id, and on a found row with valid fields it overwrites exactly the seven
content fields of that row, leaving id, request identity, creation time
and every other row unchanged, returning the updated row. -/
theorem claim_C8 (id : Int) (inp : UpdateInput) (st : Store) :
    (st.reports.find? (fun r => decide ((r.id : Int) = id)) = none →
        updateReport id inp st = { store := st, resp := Except.error ApiError.notFound }) ∧
    (∀ existing, st.reports.find? (fun r => decide ((r.id : Int) = id)) = some existing →
      requiredOkU inp → ∀ a, inp.amount = some a → 0 < a →
        (updateReport id inp st).store.reports = st.reports.map (applyUpdate id inp a) ∧
        (updateReport id inp st).store.nextId = st.nextId ∧
        (updateReport id inp st).store.uuidCounter = st.uuidCounter ∧
        (updateReport id inp st).resp = Except.ok (applyUpdate id inp a existing) ∧
        (∀ r, (applyUpdate id inp a r).id = r.id ∧
          (applyUpdate id inp a r).request_id = r.request_id ∧
          (applyUpdate id inp a r).created_at = r.created_at) ∧
        (∀ r, ¬ (r.id : Int) = id → applyUpdate id inp a r = r) ∧
        (∀ r, (r.id : Int) = id →
          (applyUpdate id inp a r).manager = jsTrimS (inp.manager.getD "") ∧
          (applyUpdate id inp a r).restaurant = jsTrimS (inp.restaurant.getD "") ∧
          (applyUpdate id inp a r).reason = jsTrimS (inp.reason.getD "") ∧
          (applyUpdate id inp a r).amount = jsRound a ∧
          (applyUpdate id inp a r).start = orEmpty inp.start ∧
          (applyUpdate id inp a r).end_ = orEmpty inp.end_ ∧
          (applyUpdate id inp a r).comment = orEmpty inp.comment)) := by
  constructor
  · exact updateReport_notFound id inp st
  · intro existing hfind hreq a hA ha
    rw [updateReport_ok id inp st existing a hfind hreq hA ha]
    refine ⟨rfl, rfl, rfl, rfl, ?_, ?_, ?_⟩
    · intro r
      unfold applyUpdate
      by_cases hid : (r.id : Int) = id
      · rw [if_pos hid]
        exact ⟨rfl, rfl, rfl⟩
      · rw [if_neg hid]
        exact ⟨rfl, rfl, rfl⟩
    · intro r hid
      unfold applyUpdate
      rw [if_neg hid]
    · intro r hid
      unfold applyUpdate
      rw [if_pos hid]
      exact ⟨rfl, rfl, rfl, rfl, rfl, rfl, rfl⟩

/-- Claim C8 witness at a concrete run. -/
theorem claim_C8_witness :
    (updateReport 1 updInput dupStore).store.reports =
      dupStore.reports.map (applyUpdate 1 updInput 7) ∧
    (updateReport 1 updInput dupStore).resp =
      Except.ok (applyUpdate 1 updInput 7 dupRow) :=
  ⟨((claim_C8 1 updInput dupStore).2 dupRow (by decide) ⟨rfl, rfl, rfl⟩ 7 rfl
      (by decide)).1,
    ((claim_C8 1 updInput dupStore).2 dupRow (by decide) ⟨rfl, rfl, rfl⟩ 7 rfl
      (by decide)).2.2.2.1⟩

/-- Claim C4, corrected: parseRuDT trims the input first and allows one
or more whitespace characters between the date and the time, so it
accepts exactly the inputs whose trimmed text has the relaxed shape, and
the two concrete examples of the specification hold. -/
theorem claim_C4 :
    (∀ s : String, (parseRuDT s).isSome = true ↔ relaxedRu s) ∧
    parseRuDT "07.01.2026 10:00" = some (mkInstant 2026 1 7 10 0) ∧
    parseRuDT "bad" = none ∧
    parseRuDT "" = none := by
  refine ⟨?_, by decide, by decide, by decide⟩
  intro s
  constructor
  · intro h
    unfold parseRuDT at h
    split at h
    · simp at h
    · rcases hm : matchRu (jsTrim s.data) with _ | v
      · rw [hm] at h
        simp at h
      · exact matchRu_forward (by rw [hm]; rfl)
  · intro h
    have hmb := matchRu_backward h
    have hs : s ≠ "" := by
      intro hse
      rw [hse] at h
      unfold relaxedRu at h
      rw [show jsTrim "".data = [] from rfl] at h
      obtain ⟨d1, d2, m1, m2, y1, y2, y3, y4, ws, h1, h2, i1, i2, _, _, _, heq⟩ := h
      simp at heq
    unfold parseRuDT
    rw [if_neg hs]
    rw [Option.isSome_iff_exists] at hmb
    obtain ⟨v, hv⟩ := hmb
    rw [hv]
    rcases v with ⟨dd, mm, yy, hh, mi⟩
    simp

/-- Claim C4 counterexample: two spaces between date and time violate
the exact single-space pattern of the claim but are accepted. -/
theorem claim_C4_counterexample :
    specExactPattern "07.01.2026  10:00" = false ∧
    parseRuDT "07.01.2026  10:00" = some (mkInstant 2026 1 7 10 0) := by decide

/-- Claim C4 witness at a concrete accepted input. -/
theorem claim_C4_witness : relaxedRu "07.01.2026  10:00" :=
  (claim_C4.1 "07.01.2026  10:00").mp (by decide)

/-- Claim C5: hoursDiff yields the absent marker when either endpoint
fails to parse, and otherwise the difference in hours rounded half up to
two decimal places, negative values included; the three concrete
examples of the specification hold. -/
theorem claim_C5 :
    (∀ s e : String, parseRuDT s = none ∨ parseRuDT e = none → hoursDiff s e = none) ∧
    (∀ (s e : String) (a b : Int), parseRuDT s = some a → parseRuDT e = some b →
        hoursDiff s e =
          some ((Int.floor (((b - a : Int) : ℚ) / 60 * 100 + 1 / 2) : ℚ) / 100)) ∧
    hoursDiff "07.01.2026 10:00" "07.01.2026 12:30" = some (5 / 2) ∧
    hoursDiff "07.01.2026 12:30" "07.01.2026 10:00" = some (-(5 / 2)) ∧
    hoursDiff "bad" "07.01.2026 10:00" = none := by
  have hgen : ∀ (s e : String) (a b : Int), parseRuDT s = some a → parseRuDT e = some b →
      hoursDiff s e =
        some ((Int.floor (((b - a : Int) : ℚ) / 60 * 100 + 1 / 2) : ℚ) / 100) := by
    intro s e a b hsa hsb
    simp only [hoursDiff, hsa, hsb]
    rw [jsRound_eq_floor]
  have h10 : parseRuDT "07.01.2026 10:00" = some 29463000 := by decide
  have h1230 : parseRuDT "07.01.2026 12:30" = some 29463150 := by decide
  refine ⟨?_, hgen, ?_, ?_, by decide⟩
  · intro s e h
    rcases h with h | h
    · rcases he : parseRuDT e with _ | b <;> simp [hoursDiff, h, he]
    · rcases hs : parseRuDT s with _ | a <;> simp [hoursDiff, h, hs]
  · rw [hgen _ _ _ _ h10 h1230]
    rw [show (((29463150 - 29463000 : Int) : ℚ) / 60 * 100) = ((250 : Int) : ℚ) by
      push_cast
      norm_num]
    rw [show ((250 : Int) : ℚ) + 1 / 2 = (250 : ℚ) + 1 / 2 by push_cast; ring]
    rw [show Int.floor ((250 : ℚ) + 1 / 2) = 250 by
      rw [Int.floor_eq_iff] <;> norm_num]
    norm_num
  · rw [hgen _ _ _ _ h1230 h10]
    rw [show (((29463000 - 29463150 : Int) : ℚ) / 60 * 100) = ((-250 : Int) : ℚ) by
      push_cast
      norm_num]
    rw [show ((-250 : Int) : ℚ) + 1 / 2 = (-250 : ℚ) + 1 / 2 by push_cast; ring]
    rw [show Int.floor ((-250 : ℚ) + 1 / 2) = -250 by
      rw [Int.floor_eq_iff] <;> norm_num]
    norm_num

/-- Claim C5 witness at concrete runs. -/
theorem claim_C5_witness :
    hoursDiff "bad" "07.01.2026 10:00" = none ∧
    hoursDiff "07.01.2026 10:00" "07.01.2026 11:00" =
      some ((Int.floor ((((29463060 : Int) - (29463000 : Int) : Int) : ℚ) / 60 * 100 + 1 / 2) : ℚ) / 100) :=
  ⟨claim_C5.1 "bad" "07.01.2026 10:00" (Or.inl (by decide)),
    claim_C5.2.1 "07.01.2026 10:00" "07.01.2026 11:00" 29463000 29463060 (by decide) (by decide)⟩

/-- Claim C6, corrected: the delimiter lookup and the split both happen
on the trimmed text, so splitRestaurant equals the first-occurrence
split of the trimmed text; on raw text whose delimiter occurrence is
destroyed by trimming, the claimed raw-text reading differs. -/
theorem claim_C6 (t : String) : splitRestaurant t = splitRestaurantTrimmedSpec t := by
  unfold splitRestaurant splitRestaurantTrimmedSpec
  rcases hfs : findSub emDelim (jsTrim t.data) with _ | i
  · simp [hfs]
  · obtain ⟨hh, ht⟩ := jsSplitEm_head_tail (jsTrim t.data) i hfs
    simp only [hfs, Option.isSome_some, if_true]
    rw [hh, ht]
    rfl

/-- Claim C6 counterexample: in the raw text the delimiter occurs right
before the trimmed-away tail, so the claimed raw-text split names a code
while the implementation returns none. -/
theorem claim_C6_counterexample :
    splitRestaurant "A — " = { code := "", name := "A —" } ∧
    splitRestaurantClaim "A — " = { code := "A", name := "" } ∧
    splitRestaurant "A — " ≠ splitRestaurantClaim "A — " := by decide

/-- Claim C6 witness at a concrete input. -/
theorem claim_C6_witness :
    splitRestaurant "12 — Main Street" = splitRestaurantTrimmedSpec "12 — Main Street" :=
  claim_C6 "12 — Main Street"

end KfcLoss
